import Mathlib

/-!
Verification of the shadowgit-mcp server's security core
(`src/shadowgit-mcp-server.ts`): the command authorizer inside
`executeGit`, the repository path resolver `resolveRepoPath`, the
subprocess error classifier, and the load-once repository registry.

Strings are modelled as `List Char`.  External collaborators
(filesystem, `path` module, `os.homedir`, the git subprocess) are
modelled as an explicit environment record, so theorems quantified over
the environment express independence from the filesystem or subprocess.
-/

-- ===========================================================================
-- String primitives (models of the JS string operations used by the server)
-- ===========================================================================

/-- Model of JS `sub` being a leading part of `s` (used for `startsWith`). -/
def startsWithStr : List Char → List Char → Bool
  | [], _ => true
  | _ :: _, [] => false
  | a :: as, b :: bs => a == b && startsWithStr as bs

/-- Model of JS `s.includes(sub)`: substring containment. -/
def strIncludes : List Char → List Char → Bool
  | [], sub => startsWithStr sub []
  | c :: rest, sub => startsWithStr sub (c :: rest) || strIncludes rest sub

/-- Characters matched by the JS `\s` regex class (whitespace). -/
def isJsWhitespace (c : Char) : Bool :=
  let n := c.toNat
  (decide (0x09 ≤ n) && decide (n ≤ 0x0D)) || (n == 0x20) || (n == 0xA0) ||
  (n == 0x1680) || (decide (0x2000 ≤ n) && decide (n ≤ 0x200A)) ||
  (n == 0x2028) || (n == 0x2029) || (n == 0x202F) || (n == 0x205F) ||
  (n == 0x3000) || (n == 0xFEFF)

/-- Model of JS lowercasing, restricted to the ASCII case mapping (all
traversal patterns the server compares against are ASCII). -/
def lowerStr (s : List Char) : List Char :=
  s.map Char.toLower

/-- Model of JS `s.replace(pat, repl)` with a string pattern: replaces only
the first occurrence of `pat`, anywhere in `s`; `s` unchanged if absent. -/
def replaceFirstStr : List Char → List Char → List Char → List Char
  | [], pat, repl => if startsWithStr pat [] then repl else []
  | c :: rest, pat, repl =>
    if startsWithStr pat (c :: rest) then repl ++ (c :: rest).drop pat.length
    else c :: replaceFirstStr rest pat repl

-- ===========================================================================
-- Constants of the server (lines 18-161 of the source)
-- ===========================================================================

/-- Constant `MAX_COMMAND_LENGTH = 1000`. -/
def MAX_COMMAND_LENGTH : Nat := 1000

/-- Constant `SHADOWGIT_DIR = '.shadowgit.git'`. -/
def SHADOWGIT_DIR : List Char := (".shadowgit.git").data

/-- The `SAFE_COMMANDS` allow-list (a JS `Set`, membership is exact match). -/
def SAFE_COMMANDS : List (List Char) := [
  ("log").data, ("diff").data, ("show").data, ("blame").data,
  ("grep").data, ("status").data,
  ("rev-parse").data, ("rev-list").data, ("ls-files").data, ("cat-file").data,
  ("diff-tree").data, ("shortlog").data, ("reflog").data, ("describe").data,
  ("branch").data, ("tag").data, ("for-each-ref").data, ("ls-tree").data,
  ("merge-base").data, ("cherry").data, ("count-objects").data]

/-- The `BLOCKED_ARGS` deny-list, in source order. -/
def BLOCKED_ARGS : List (List Char) := [
  ("--exec").data, ("--upload-pack").data, ("--receive-pack").data,
  ("-c").data, ("--config").data, ("--work-tree").data, ("--git-dir").data,
  ("push").data, ("pull").data, ("fetch").data, ("commit").data,
  ("merge").data,
  ("rebase").data, ("reset").data, ("clean").data, ("checkout").data,
  ("add").data,
  ("rm").data, ("mv").data, ("restore").data, ("stash").data,
  ("remote").data,
  ("submodule").data, ("worktree").data, ("filter-branch").data,
  ("repack").data, ("gc").data, ("prune").data, ("fsck").data]

/-- The `PATH_TRAVERSAL_PATTERNS` list. -/
def PATH_TRAVERSAL_PATTERNS : List (List Char) := [
  ("../").data,
  ("..\\").data,
  ("%2e%2e").data,
  ("..%2f").data,
  ("..%5c").data]

-- ===========================================================================
-- Command authorizer (executeGit lines 398-422)
-- ===========================================================================

/-- The character class of the strip regex
`/[\x00-\x08\x0B\x0C\x0E-\x1F\x7F]/` on line 405. -/
def ctrlClass (c : Char) : Bool :=
  decide (c.toNat ≤ 0x08) || (c.toNat == 0x0B) || (c.toNat == 0x0C) ||
  (decide (0x0E ≤ c.toNat) && decide (c.toNat ≤ 0x1F)) || (c.toNat == 0x7F)

/-- Line 405: `command.replace(/[\x00-\x08\x0B\x0C\x0E-\x1F\x7F]/g, '')`. -/
def stripCtrl (command : List Char) : List Char :=
  command.filter (fun c => !(ctrlClass c))

/-- Line 408-409: `sanitizedCommand.trim().split(/\s+/)[0]`, the first
whitespace-delimited token. -/
def firstToken (s : List Char) : List Char :=
  (s.dropWhile isJsWhitespace).takeWhile (fun c => !(isJsWhitespace c))

/-- The `for (const blocked of this.BLOCKED_ARGS)` loop of lines 418-422:
first deny-list entry contained in `command`, scanning the raw string. -/
def scanBlocked (command : List Char) : List (List Char) → Option (List Char)
  | [] => none
  | b :: bs => if strIncludes command b then some b else scanBlocked command bs

/-- Authorization verdict.  `allowed` carries the sanitized string that is
interpolated into the executed shell command (line 430); the three denial
constructors correspond to the three early-return error texts of
`executeGit` (lines 401, 412, 420). -/
inductive Verdict where
  | allowed (execCmd : List Char)
  | deniedTooLong
  | deniedNotAllowed (subcmd : List Char)
  | deniedBlocked (arg : List Char)
deriving DecidableEq

/-- Truth of the verdict being a denial. -/
def Verdict.isDenied : Verdict → Bool
  | .allowed _ => false
  | _ => true

/-- Truth of the verdict being an allowance. -/
def Verdict.isAllowed : Verdict → Bool
  | .allowed _ => true
  | _ => false

/-- The authorization gate of `executeGit` (lines 398-422): length bound on
the raw command, control-character strip, subcommand extraction from the
sanitized string, allow-list check, then the deny-list scan over the raw
command string. -/
def authorize (command : List Char) : Verdict :=
  if MAX_COMMAND_LENGTH < command.length then
    .deniedTooLong
  else if !(SAFE_COMMANDS.contains (firstToken (stripCtrl command))) then
    .deniedNotAllowed (firstToken (stripCtrl command))
  else
    match scanBlocked command BLOCKED_ARGS with
    | some b => .deniedBlocked b
    | none => .allowed (stripCtrl command)

-- ===========================================================================
-- Registry and environment
-- ===========================================================================

/-- The in-memory registry: `this.repos`, a JS `Map` from repository name to
path, modelled as an association list without duplicate keys. -/
abbrev RepoMap := List (List Char × List Char)

/-- JS `Map.set`: overwrite the value in place if the key is present,
otherwise append the new entry. -/
def mapSet : RepoMap → List Char → List Char → RepoMap
  | [], k, v => [(k, v)]
  | (k', v') :: rest, k, v =>
    if k' == k then (k, v) :: rest else (k', v') :: mapSet rest k v

/-- JS `Map.get`: exact-match lookup. -/
def mapGet : RepoMap → List Char → Option (List Char)
  | [], _ => none
  | (k', v') :: rest, k => if k' == k then some v' else mapGet rest k

/-- Function `loadRepositories` (lines 180-190): a single pass over the parsed JSON
entries, `this.repos.set(repo.name, repo.path)` for each. -/
def loadRepositories (entries : List (List Char × List Char)) : RepoMap :=
  entries.foldl (fun m e => mapSet m e.1 e.2) []

/-- Result of the `execSync` subprocess call: either stdout, or the thrown
error object, whose fields drive the error classification of lines 447-464. -/
structure ExecError where
  code : Option (List Char)
  signal : Option (List Char)
  status : Option Int
  stderr : Option (List Char)
  message : List Char
deriving DecidableEq

/-- Outcome of the subprocess call wrapped by the `try` of line 429. -/
inductive ExecResult where
  | ok (output : List Char)
  | err (e : ExecError)
deriving DecidableEq

/-- External collaborators of the server, passed explicitly: the filesystem
existence check (`fs.existsSync`), `os.homedir()`, `path.normalize`,
`path.isAbsolute`, `path.join`, and the git subprocess. -/
structure Env where
  present : List Char → Bool
  homeDir : List Char
  normalizePath : List Char → List Char
  isAbsolutePath : List Char → Bool
  joinPath : List Char → List Char → List Char
  runGit : List Char → List Char → ExecResult

-- ===========================================================================
-- Path resolver (resolveRepoPath, lines 361-396)
-- ===========================================================================

/-- The `isPath` test of lines 376-379: starts with `/`, starts with `~`,
contains a colon, or starts with a double backslash. -/
def isPathLike (repoNameOrPath : List Char) : Bool :=
  startsWithStr (("/").data) repoNameOrPath ||
  startsWithStr (("~").data) repoNameOrPath ||
  strIncludes repoNameOrPath ((":").data) ||
  startsWithStr (("\\\\").data) repoNameOrPath

/-- The literal-path branch of `resolveRepoPath` (lines 374-393): if the
identifier looks like a path, replace the first `~` with the home
directory, normalize, require the result absolute, and return it only if
it exists on the filesystem. -/
def literalPathLookup (env : Env) (repoNameOrPath : List Char) :
    Option (List Char) :=
  if isPathLike repoNameOrPath then
    let resolvedPath :=
      env.normalizePath
        (replaceFirstStr repoNameOrPath (("~").data) env.homeDir)
    if !(env.isAbsolutePath resolvedPath) then none
    else if env.present resolvedPath then some resolvedPath
    else none
  else none

/-- Function `resolveRepoPath` (lines 361-396): traversal screen on the lowercased
raw identifier, then registry lookup (a falsy mapped value — JS
`undefined` or the empty string — falls through), then the literal-path
branch. -/
def resolveRepoPath (env : Env) (repos : RepoMap)
    (repoNameOrPath : List Char) : Option (List Char) :=
  if PATH_TRAVERSAL_PATTERNS.any
      (fun pat => strIncludes (lowerStr repoNameOrPath) pat) then
    none
  else
    match mapGet repos repoNameOrPath with
    | some mappedPath =>
      if mappedPath.isEmpty then literalPathLookup env repoNameOrPath
      else some mappedPath
    | none => literalPathLookup env repoNameOrPath

-- ===========================================================================
-- Execution adapter (executeGit lines 424-465)
-- ===========================================================================

/-- The redaction regex replace of line 459:
`stderr.replace(/\/[^\s]*/g, '[path]')` — every `/` together with the
maximal following run of non-whitespace characters becomes `[path]`. -/
def redactPaths (s : List Char) : List Char :=
  match s with
  | [] => []
  | c :: rest =>
    if c = '/' then
      (("[path]").data) ++
        redactPaths (rest.dropWhile (fun d => !(isJsWhitespace d)))
    else c :: redactPaths rest
termination_by s.length
decreasing_by
  · exact Nat.lt_succ_of_le (List.Sublist.length_le (List.dropWhile_sublist _))
  · simp

/-- Line 457: `error.stderr?.toString() || error.message` — a missing or
empty stderr falls back to the error message. -/
def stderrText (e : ExecError) : List Char :=
  match e.stderr with
  | some s => if s.isEmpty then e.message else s
  | none => e.message

/-- Classified failure outcome of the catch block (lines 442-464). -/
inductive FailOutcome where
  | execMissing
  | timeout
  | outputTooLarge
  | toolError (msg : List Char)
  | generic (msg : List Char)
deriving DecidableEq

/-- The error classification chain of the catch block (lines 447-464), in
source order: ENOENT, SIGTERM, ENOBUFS-or-maxBuffer, exit status 128
(with path redaction of stderr), then the generic truncated message. -/
def classifyError (e : ExecError) : FailOutcome :=
  if e.code == some (("ENOENT").data) then .execMissing
  else if e.signal == some (("SIGTERM").data) then .timeout
  else if (e.code == some (("ENOBUFS").data)) ||
      strIncludes e.message (("maxBuffer").data) then .outputTooLarge
  else if e.status == some (128 : Int) then
    .toolError ((("Git error: ").data) ++ redactPaths (stderrText e))
  else .generic (e.message.take 200)

/-- Post-subprocess handling: empty stdout becomes the literal placeholder
(line 440), a thrown error is classified. -/
inductive ExecReply where
  | output (text : List Char)
  | emptyOutput
  | failed (f : FailOutcome)
deriving DecidableEq

/-- The success/failure tail of `executeGit` (lines 429-465). -/
def finishExec (r : ExecResult) : ExecReply :=
  match r with
  | .ok out => if out.isEmpty then .emptyOutput else .output out
  | .err e => .failed (classifyError e)

/-- Full `executeGit`: authorization gate, then the subprocess invoked with
the sanitized command string (line 430). -/
inductive GitReply where
  | denied (v : Verdict)
  | ran (r : ExecReply)
deriving DecidableEq

/-- Function `executeGit` composed: a denial verdict is returned as-is; an allowed
command hands its sanitized form to the subprocess in `repoPath`. -/
def executeGit (env : Env) (command repoPath : List Char) : GitReply :=
  match authorize command with
  | .allowed sanitizedCommand =>
    .ran (finishExec (env.runGit sanitizedCommand repoPath))
  | v => .denied v

-- ===========================================================================
-- Request handlers (handleGit lines 266-333, handleListRepos lines 335-359)
-- ===========================================================================

/-- Server state: the `repos` map is the only mutable field the handlers
can observe (`isShuttingDown` never affects request handling). -/
structure ServerState where
  repos : RepoMap
deriving DecidableEq

/-- The repository names offered in the not-found message (lines 288-290):
keys of the map that do not start with a slash. -/
def availableNames (m : RepoMap) : List (List Char) :=
  (m.map Prod.fst).filter (fun k => !(startsWithStr (("/").data) k))

/-- Structured response of the `git` tool handler. -/
inductive Resp where
  | usage
  | notFound (available : List (List Char))
  | notTracked (repoPath : List Char)
  | gitReply (r : GitReply)
  | noRepos
  | reposListing (entries : RepoMap)
deriving DecidableEq

/-- Function `handleGit` (lines 266-333): argument type guard, path resolution,
snapshot-store marker check, then `executeGit`.  The state is returned
unchanged on every branch — the handler never writes `this.repos`. -/
def handleGit (env : Env) (s : ServerState)
    (args : Option (List Char × List Char)) : Resp × ServerState :=
  match args with
  | none => (.usage, s)
  | some (repo, command) =>
    match resolveRepoPath env s.repos repo with
    | none => (.notFound (availableNames s.repos), s)
    | some repoPath =>
      if !(env.present (env.joinPath repoPath SHADOWGIT_DIR)) then
        (.notTracked repoPath, s)
      else
        (.gitReply (executeGit env command repoPath), s)

/-- Function `handleListRepos` (lines 335-359): reads the registry, never writes. -/
def handleListRepos (s : ServerState) : Resp × ServerState :=
  if s.repos.isEmpty then (.noRepos, s)
  else (.reposListing s.repos, s)

/-- A tool call received by the request dispatcher (lines 245-263). -/
inductive Call where
  | git (args : Option (List Char × List Char))
  | listRepos
deriving DecidableEq

/-- One dispatched call. -/
def step (env : Env) (s : ServerState) (c : Call) : Resp × ServerState :=
  match c with
  | .git args => handleGit env s args
  | .listRepos => handleListRepos s

/-- A whole sequence of calls, threading the server state. -/
def runCalls (env : Env) (s : ServerState) (calls : List Call) : ServerState :=
  calls.foldl (fun st c => (step env st c).2) s

-- ===========================================================================
-- Spec-worded definitions for the refinement claims, and concrete inputs
-- ===========================================================================

/-- The literal-path step as the specification words it: expand a LEADING
tilde (only) to the home directory, normalize, require the result
absolute, and return it only if it exists.  Written from the spec text
for comparison against `literalPathLookup`. -/
def specLiteralPathStep (env : Env) (id : List Char) : Option (List Char) :=
  let expanded :=
    if startsWithStr (("~").data) id then env.homeDir ++ id.drop 1 else id
  let n := env.normalizePath expanded
  if env.isAbsolutePath n then (if env.present n then some n else none)
  else none

/-- The literal-path step as amended: the first `~` occurrence anywhere in
the identifier (not only a leading one) is replaced by the home
directory; the rest as the spec words it. -/
def specLiteralPathAmended (env : Env) (id : List Char) :
    Option (List Char) :=
  let n := env.normalizePath (replaceFirstStr id (("~").data) env.homeDir)
  if env.isAbsolutePath n then (if env.present n then some n else none)
  else none

/-- A concrete environment whose filesystem reports nothing as existing. -/
def envNoFs : Env :=
  ⟨fun _ => false, ("/home/u").data, fun s => s,
   fun s => startsWithStr (("/").data) s,
   fun a b => a ++ (("/").data) ++ b, fun _ _ => ExecResult.ok []⟩

/-- A concrete environment for the tilde-replacement counterexample: home
directory `/h`, normalization the identity on the already-normal inputs
involved, and only `/a/hb` present on the filesystem. -/
def envTilde : Env :=
  ⟨fun p => p == ("/a/hb").data, ("/h").data, fun s => s,
   fun s => startsWithStr (("/").data) s,
   fun a b => a ++ (("/").data) ++ b, fun _ _ => ExecResult.ok []⟩

/-- An over-long command: the allow-listed subcommand `log` followed by 998
spaces, 1001 characters in total, containing no deny-listed substring. -/
def longCmd : List Char := ("log").data ++ List.replicate 998 ' '

/-- A concrete subprocess error: exit status 128 with an absolute path in
stderr. -/
def gitError128 : ExecError :=
  ⟨none, none, some 128, some (("fatal: bad revision /home/u/secret").data),
   ("cmd failed").data⟩

-- ===========================================================================
-- Helper lemmas about the string primitives
-- ===========================================================================

theorem startsWithStr_self_append (p r : List Char) :
    startsWithStr p (p ++ r) = true := by
  induction p with
  | nil => rfl
  | cons a as ih => simp [startsWithStr, ih]

theorem strIncludes_of_startsWithStr {s sub : List Char}
    (h : startsWithStr sub s = true) : strIncludes s sub = true := by
  cases s with
  | nil => simpa [strIncludes] using h
  | cons c rest => simp [strIncludes, h]

theorem strIncludes_append_left (u : List Char) {s sub : List Char}
    (h : strIncludes s sub = true) : strIncludes (u ++ s) sub = true := by
  induction u with
  | nil => simpa using h
  | cons a as ih => simp [strIncludes, ih]

theorem strIncludes_mid (u m v : List Char) :
    strIncludes (u ++ (m ++ v)) m = true :=
  strIncludes_append_left u
    (strIncludes_of_startsWithStr (startsWithStr_self_append m v))

theorem exists_decomp_firstToken (s : List Char) :
    ∃ u v, s = u ++ (firstToken s ++ v) := by
  refine ⟨s.takeWhile isJsWhitespace,
    (s.dropWhile isJsWhitespace).dropWhile (fun c => !(isJsWhitespace c)), ?_⟩
  conv_lhs => rw [← List.takeWhile_append_dropWhile isJsWhitespace s]
  rw [firstToken]
  congr 1
  exact (List.takeWhile_append_dropWhile _ _).symm

theorem scanBlocked_eq_none_iff {cmd : List Char} {l : List (List Char)} :
    scanBlocked cmd l = none ↔ ∀ b ∈ l, strIncludes cmd b = false := by
  induction l with
  | nil => simp [scanBlocked]
  | cons b bs ih =>
    by_cases h : strIncludes cmd b = true
    · simp [scanBlocked, h]
    · simp only [Bool.not_eq_true] at h
      simp [scanBlocked, h, ih]

-- ===========================================================================
-- Helper lemmas about the authorizer
-- ===========================================================================

/-- Characterization of the allowed verdict: every guard of the gate passed
and the sanitized command is what is handed on for execution. -/
theorem authorize_eq_allowed (cmd ex : List Char) :
    authorize cmd = Verdict.allowed ex ↔
      ¬ (MAX_COMMAND_LENGTH < cmd.length) ∧
      SAFE_COMMANDS.contains (firstToken (stripCtrl cmd)) = true ∧
      scanBlocked cmd BLOCKED_ARGS = none ∧ ex = stripCtrl cmd := by
  unfold authorize
  split
  · next h => simp [h]
  · next h =>
    split
    · next h2 =>
      constructor
      · intro hc; exact absurd hc (by simp)
      · rintro ⟨_, h3, _, _⟩
        rw [h3] at h2
        simp at h2
    · next h2 =>
      have hcont : SAFE_COMMANDS.contains (firstToken (stripCtrl cmd)) = true := by
        simpa using h2
      split
      · next b hsb =>
        constructor
        · intro hx; exact absurd hx (by simp)
        · rintro ⟨_, _, h4, _⟩
          rw [h4] at hsb
          cases hsb
      · next hnone =>
        constructor
        · intro hx
          injection hx with he
          exact ⟨h, hcont, hnone, he.symm⟩
        · rintro ⟨_, _, _, he⟩
          rw [he]

/-- Any command whose raw string contains a deny-list entry is denied (it
never reaches the final allowed branch). -/
theorem denied_of_blocked (cmd b : List Char) (hb : b ∈ BLOCKED_ARGS)
    (hinc : strIncludes cmd b = true) : (authorize cmd).isDenied = true := by
  unfold authorize
  split
  · rfl
  split
  · rfl
  split
  · rfl
  next hnone =>
    exfalso
    rw [scanBlocked_eq_none_iff] at hnone
    have h := hnone b hb
    rw [hinc] at h
    cases h

set_option maxRecDepth 100000

-- ===========================================================================
-- Claims C1, C2, C5, C6: the command authorizer
-- ===========================================================================

/-- C1: for every command string that contains a deny-listed token anywhere
as a substring, the authorizer returns a denial, even when the leading
whitespace-delimited subcommand is allow-listed; the deny check is plain
substring containment, not token-boundary matching. -/
theorem claim_C1 (cmd b : List Char) (hb : b ∈ BLOCKED_ARGS)
    (hinc : strIncludes cmd b = true) : (authorize cmd).isDenied = true :=
  denied_of_blocked cmd b hb hinc

theorem claim_C1_witness :
    ((("push").data ∈ BLOCKED_ARGS) ∧
      strIncludes (("diff push origin").data) (("push").data) = true) ∧
    (authorize (("diff push origin").data)).isDenied = true :=
  ⟨⟨by decide, by decide⟩,
   claim_C1 (("diff push origin").data) (("push").data) (by decide) (by decide)⟩

/-- C2, counterexample to the claim as stated: `longCmd` (the allow-listed
subcommand `log` padded with spaces to 1001 characters) has an
allow-listed first token and contains no deny-listed substring, yet the
authorizer does not return Allowed — the length bound denies it first. -/
theorem claim_C2_counterexample :
    SAFE_COMMANDS.contains (firstToken (stripCtrl longCmd)) = true ∧
    BLOCKED_ARGS.all (fun b => !(strIncludes longCmd b)) = true ∧
    (authorize longCmd).isAllowed = false := by decide

/-- C2 as amended: for every command string of length at most 1000 (the
configured maximum) whose first whitespace-delimited token after
control-character stripping is a member of the allow-list and that
contains no deny-listed substring, the authorizer returns Allowed. -/
theorem claim_C2_amended (cmd : List Char)
    (hlen : cmd.length ≤ MAX_COMMAND_LENGTH)
    (hsafe : SAFE_COMMANDS.contains (firstToken (stripCtrl cmd)) = true)
    (hblk : ∀ b ∈ BLOCKED_ARGS, strIncludes cmd b = false) :
    authorize cmd = Verdict.allowed (stripCtrl cmd) :=
  (authorize_eq_allowed cmd (stripCtrl cmd)).mpr
    ⟨Nat.not_lt.mpr hlen, hsafe, scanBlocked_eq_none_iff.mpr hblk, rfl⟩

theorem claim_C2_amended_witness :
    authorize (("log --oneline").data) =
      Verdict.allowed (stripCtrl (("log --oneline").data)) :=
  claim_C2_amended (("log --oneline").data) (by decide) (by decide) (by decide)

/-- C5: there is a command string — here `log pu<NUL>sh`, a deny token
interrupted by a control character — that the authorizer allows although
the sanitized string handed to the executor contains a deny-listed
token: the deny-list scan inspects the raw string while execution uses
the control-stripped string. -/
theorem claim_C5 :
    ∃ cmd ex b : List Char,
      authorize cmd = Verdict.allowed ex ∧ b ∈ BLOCKED_ARGS ∧
      strIncludes ex b = true ∧ strIncludes cmd b = false := by
  refine ⟨("log pu\x00sh").data, ("log push").data, ("push").data,
    ?_, ?_, ?_, ?_⟩ <;> decide

/-- C6: `merge-base` is a member of the allow-list, yet every command
string whose first whitespace-delimited token is `merge-base` is denied,
because that token contains the deny-listed substring `merge`; the
allow-list entry can never produce an Allowed verdict for such a
command. -/
theorem claim_C6 :
    ("merge-base").data ∈ SAFE_COMMANDS ∧
    ∀ cmd : List Char, firstToken cmd = ("merge-base").data →
      (authorize cmd).isDenied = true := by
  constructor
  · decide
  · intro cmd hft
    obtain ⟨u, v, hs⟩ := exists_decomp_firstToken cmd
    rw [hft] at hs
    have hsplit : ("merge-base").data = ("merge").data ++ ("-base").data := by
      decide
    rw [hsplit, List.append_assoc] at hs
    have hm : strIncludes cmd (("merge").data) = true := by
      rw [hs]
      exact strIncludes_mid u _ _
    exact denied_of_blocked cmd (("merge").data) (by decide) hm

theorem claim_C6_witness :
    firstToken (("merge-base HEAD main").data) = ("merge-base").data ∧
    (authorize (("merge-base HEAD main").data)).isDenied = true :=
  ⟨by decide, claim_C6.2 (("merge-base HEAD main").data) (by decide)⟩

-- ===========================================================================
-- Claims C3, C7, C8: the path resolver
-- ===========================================================================

/-- C3: an identifier whose lowercasing contains any traversal pattern is
rejected by the resolver no matter what the registry contains and no
matter what the filesystem reports — the screen runs before the registry
lookup and before any existence check. -/
theorem claim_C3 (env : Env) (repos : RepoMap) (id pat : List Char)
    (hp : pat ∈ PATH_TRAVERSAL_PATTERNS)
    (hinc : strIncludes (lowerStr id) pat = true) :
    resolveRepoPath env repos id = none := by
  have hany : PATH_TRAVERSAL_PATTERNS.any
      (fun pat => strIncludes (lowerStr id) pat) = true :=
    List.any_eq_true.mpr ⟨pat, hp, hinc⟩
  simp [resolveRepoPath, hany]

theorem claim_C3_witness :
    ((("../").data ∈ PATH_TRAVERSAL_PATTERNS) ∧
      strIncludes (lowerStr (("../x").data)) (("../").data) = true) ∧
    resolveRepoPath envNoFs [((("../x").data), (("/r").data))]
      (("../x").data) = none :=
  ⟨⟨by decide, by decide⟩,
   claim_C3 envNoFs [((("../x").data), (("/r").data))] (("../x").data)
     (("../").data) (by decide) (by decide)⟩

/-- C7, counterexample to the claim as stated: a registry entry whose
registered location is the empty string is not returned — JS truthiness
(`if (mappedPath)`, line 372) treats the empty string as absent and the
resolver falls through to the literal-path branch, yielding rejection
for the name `r`. -/
theorem claim_C7_counterexample :
    mapGet [((("r").data), ([] : List Char))] (("r").data) = some [] ∧
    PATH_TRAVERSAL_PATTERNS.all
      (fun p => !(strIncludes (lowerStr (("r").data)) p)) = true ∧
    resolveRepoPath envNoFs [((("r").data), [])] (("r").data) = none := by
  decide

/-- C7 as amended: for every identifier that passes the traversal screen
and exactly matches a registry key whose registered location is
non-empty, the resolver returns that registered location regardless of
the filesystem (no existence check); the lookup is exact-match only. -/
theorem claim_C7_amended (env : Env) (repos : RepoMap) (id loc : List Char)
    (hscreen : PATH_TRAVERSAL_PATTERNS.any
      (fun p => strIncludes (lowerStr id) p) = false)
    (hget : mapGet repos id = some loc) (hne : loc ≠ []) :
    resolveRepoPath env repos id = some loc := by
  have hie : loc.isEmpty = false := by
    cases loc
    · exact absurd rfl hne
    · rfl
  simp [resolveRepoPath, hscreen, hget, hie]

theorem claim_C7_amended_witness :
    mapGet [((("proj").data), (("/p").data))] (("proj").data) =
      some (("/p").data) ∧
    resolveRepoPath envNoFs [((("proj").data), (("/p").data))]
      (("proj").data) = some (("/p").data) :=
  ⟨by decide,
   claim_C7_amended envNoFs [((("proj").data), (("/p").data))]
     (("proj").data) (("/p").data) (by decide) (by decide) (by decide)⟩

/-- C8, counterexample to the claim as stated: the identifier `/a~b` looks
like a path but has no LEADING tilde, so per the claim nothing is
expanded and resolution should test existence of `/a~b` (absent, hence
rejection); the code instead replaces the FIRST tilde anywhere
(`replace('~', homedir)`, line 382), resolving to `/a/hb`, which exists
and is returned. -/
theorem claim_C8_counterexample :
    isPathLike (("/a~b").data) = true ∧
    resolveRepoPath envTilde [] (("/a~b").data) = some (("/a/hb").data) ∧
    specLiteralPathStep envTilde (("/a~b").data) = none := by decide

/-- C8 as amended: for every identifier that passes the traversal screen,
matches no registry key (or a key registered to the empty string), and
looks like a filesystem path, the resolver behaves as the spec-worded
pipeline with the tilde step amended to replace the first `~` occurrence
anywhere: normalize the replaced string, reject a non-absolute result,
and return the normalized absolute path only if it exists. -/
theorem claim_C8_amended (env : Env) (repos : RepoMap) (id : List Char)
    (hscreen : PATH_TRAVERSAL_PATTERNS.any
      (fun p => strIncludes (lowerStr id) p) = false)
    (hreg : mapGet repos id = none ∨ mapGet repos id = some [])
    (hpath : isPathLike id = true) :
    resolveRepoPath env repos id = specLiteralPathAmended env id := by
  have hlit : literalPathLookup env id = specLiteralPathAmended env id := by
    unfold literalPathLookup specLiteralPathAmended
    rw [hpath]
    cases hab : env.isAbsolutePath
        (env.normalizePath (replaceFirstStr id (("~").data) env.homeDir)) <;>
      simp [hab]
  rcases hreg with h | h <;> simp [resolveRepoPath, hscreen, h, hlit, List.isEmpty]

theorem claim_C8_amended_witness :
    resolveRepoPath envTilde [] (("/a/hb").data) =
      specLiteralPathAmended envTilde (("/a/hb").data) :=
  claim_C8_amended envTilde [] (("/a/hb").data) (by decide)
    (Or.inl (by decide)) (by decide)

-- ===========================================================================
-- Claims C4, C9, C10
-- ===========================================================================

/-- C4, counterexample to the claim as stated: the sanitized string is NOT
used for the deny-list scan.  For `log fe<SOH>tch` the sanitized string
`log fetch` contains the deny-listed token `fetch`, so under the claimed
semantics the command would be denied; the code scans the raw string
(line 419) and allows it. -/
theorem claim_C4_counterexample :
    authorize (("log fe\x01tch").data) =
      Verdict.allowed (("log fetch").data) ∧
    ("fetch").data ∈ BLOCKED_ARGS ∧
    strIncludes (("log fetch").data) (("fetch").data) = true := by decide

/-- C4 as amended: whenever the authorizer allows a command, the string
handed on for execution is exactly the raw command with the bytes in the
ranges 0x00-0x08, 0x0B-0x0C, 0x0E-0x1F and 0x7F removed; that sanitized
string is the one whose first token passed the allow-list check, and it
is the executed string — never the raw one; the deny-list scan, however,
inspected the raw command string. -/
theorem claim_C4_amended (cmd ex : List Char)
    (h : authorize cmd = Verdict.allowed ex) :
    ex = cmd.filter (fun c => !(ctrlClass c)) ∧
    (∀ c : Char, ctrlClass c = true ↔
      (c.toNat ≤ 8 ∨ c.toNat = 11 ∨ c.toNat = 12 ∨
        (14 ≤ c.toNat ∧ c.toNat ≤ 31) ∨ c.toNat = 127)) ∧
    SAFE_COMMANDS.contains (firstToken ex) = true ∧
    (∀ b ∈ BLOCKED_ARGS, strIncludes cmd b = false) := by
  obtain ⟨hlen, hsafe, hnone, hex⟩ := (authorize_eq_allowed cmd ex).mp h
  refine ⟨by rw [hex]; rfl, ?_, by rw [hex]; exact hsafe,
    scanBlocked_eq_none_iff.mp hnone⟩
  intro c
  simp [ctrlClass]
  tauto

theorem claim_C4_witness :
    authorize (("log\x00\x01 --oneline").data) =
      Verdict.allowed (("log --oneline").data) ∧
    ("log --oneline").data =
      (("log\x00\x01 --oneline").data).filter (fun c => !(ctrlClass c)) :=
  ⟨by decide,
   (claim_C4_amended (("log\x00\x01 --oneline").data)
     (("log --oneline").data) (by decide)).1⟩

/-- No slash survives the redaction: every `/` in the input starts a match
of `/\/[^\s]*/g`, so the replaced text contains no `/` at all. -/
theorem redactPaths_no_slash_aux :
    ∀ (n : Nat) (s : List Char), s.length ≤ n →
      ∀ c ∈ redactPaths s, c ≠ '/' := by
  intro n
  induction n with
  | zero =>
    intro s hs
    have hnil : s = [] := List.length_eq_zero.mp (Nat.le_zero.mp hs)
    subst hnil
    simp [redactPaths]
  | succ n ih =>
    intro s hs c hc
    cases s with
    | nil => simp [redactPaths] at hc
    | cons d rest =>
      have hr : rest.length ≤ n := by
        simp only [List.length_cons] at hs
        omega
      rw [redactPaths] at hc
      by_cases hd : d = '/'
      · rw [if_pos hd] at hc
        rcases List.mem_append.mp hc with h | h
        · intro hcc
          subst hcc
          revert h
          decide
        · refine ih _ ?_ c h
          exact Nat.le_trans
            (List.Sublist.length_le (List.dropWhile_sublist _)) hr
      · rw [if_neg hd] at hc
        rcases List.mem_cons.mp hc with h | h
        · subst h; exact hd
        · exact ih rest hr c h

theorem redactPaths_no_slash (s : List Char) :
    ∀ c ∈ redactPaths s, c ≠ '/' :=
  redactPaths_no_slash_aux s.length s (Nat.le_refl _)

/-- C9: a subprocess failure with exit status 128 (that was not classified
as missing-executable, timeout, or buffer overflow earlier in the chain)
yields the ToolError outcome whose message is built from the stderr text
with the path redaction applied; the redacted text contains no `/`, so
every absolute-path-looking substring was replaced by `[path]`. -/
theorem claim_C9 (e : ExecError)
    (h1 : (e.code == some (("ENOENT").data)) = false)
    (h2 : (e.signal == some (("SIGTERM").data)) = false)
    (h3 : ((e.code == some (("ENOBUFS").data)) ||
      strIncludes e.message (("maxBuffer").data)) = false)
    (h4 : (e.status == some (128 : Int)) = true) :
    classifyError e =
      FailOutcome.toolError
        ((("Git error: ").data) ++ redactPaths (stderrText e)) ∧
    ∀ c ∈ redactPaths (stderrText e), c ≠ '/' := by
  constructor
  · simp [classifyError, h1, h2, h3, h4]
  · exact redactPaths_no_slash (stderrText e)

theorem claim_C9_witness :
    classifyError gitError128 =
      FailOutcome.toolError
        ((("Git error: ").data) ++ redactPaths (stderrText gitError128)) :=
  (claim_C9 gitError128 (by decide) (by decide) (by decide) (by decide)).1

/-- A single dispatched call leaves the server state untouched: neither
handler ever writes to the repository map. -/
theorem step_preserves_repos (env : Env) (s : ServerState) (c : Call) :
    (step env s c).2 = s := by
  cases c with
  | git args =>
    simp only [step, handleGit]
    split
    · rfl
    · split
      · rfl
      · split
        · rfl
        · rfl
  | listRepos =>
    simp only [step, handleListRepos]
    split <;> rfl

/-- C10: after the one-time load at startup, the registry is never added
to, removed from, or mutated: for every sequence of git and list_repos
calls, the registry observed afterwards equals the one the load
produced. -/
theorem claim_C10 (env : Env) (entries : List (List Char × List Char))
    (calls : List Call) :
    (runCalls env ⟨loadRepositories entries⟩ calls).repos =
      loadRepositories entries := by
  have h : ∀ (cs : List Call) (s : ServerState), runCalls env s cs = s := by
    intro cs
    induction cs with
    | nil => intro s; rfl
    | cons c cs ih =>
      intro s
      show runCalls env ((step env s c).2) cs = s
      rw [step_preserves_repos]
      exact ih s
  rw [h]
